import Mathlib

/-!
Verification development for the disgord-tlru cache (`cache.go`).

The Go source is shallowly embedded: Go pointers to entity records become
plain values with explicit write-back into the owning store, Go maps become
association lists with `mget`/`mset`/`mdel`, the `container/list` channel
lists become `List Nat`, and the injected JSON deserialization capability
(external to the repository, see spec section 6) is modelled by per-event
payload records whose optional fields are merged onto a target value, with
two failure modes mirroring `encoding/json`: a syntactic failure that applies
nothing (`garbled`) and a trailing shape-mismatch failure that applies the
listed fields before erroring (`mismatch`).  Snowflake ids are `Nat`.
-/

namespace DisgordTlru

/-- Discord user record (`disgord.User`); `payload` stands for the opaque
profile fields the cache does not interpret. -/
structure User where
  id : Nat
  payload : Nat
deriving DecidableEq

/-- Guild member (`disgord.Member`); `user` models the embedded `*disgord.User`
pointer (`none` = nil), `nick` stands for the opaque profile fields. -/
structure Member where
  userID : Nat
  guildID : Nat
  nick : Nat
  user : Option User
deriving DecidableEq

/-- Channel record (`disgord.Channel`); `lastPinTimestamp = 0` models the zero
`Time` value (`IsZero`), `payload` the remaining opaque fields. -/
structure Channel where
  id : Nat
  guildID : Nat
  lastPinTimestamp : Nat
  payload : Nat
deriving DecidableEq

/-- Guild emoji (`disgord.Emoji`). -/
structure Emoji where
  id : Nat
  payload : Nat
deriving DecidableEq

/-- Guild role (`disgord.Role`). -/
structure Role where
  id : Nat
  payload : Nat
deriving DecidableEq

/-- Guild record (`disgord.Guild`).  `memberCount` is a Go `int`, hence `Int`. -/
structure Guild where
  id : Nat
  unavailable : Bool
  memberCount : Int
  members : List Member
  channels : List Channel
  emojis : List Emoji
  roles : List Role
  payload : Nat
deriving DecidableEq

/-- Go map lookup `m[k]` (comma-ok form), on an association-list embedding. -/
def mget {α : Type} : List (Nat × α) → Nat → Option α
  | [], _ => none
  | (k, v) :: t, k0 => if k0 = k then some v else mget t k0

/-- Go map assignment `m[k] = v`. -/
def mset {α : Type} : List (Nat × α) → Nat → α → List (Nat × α)
  | [], k0, v0 => [(k0, v0)]
  | (k, v) :: t, k0, v0 => if k0 = k then (k0, v0) :: t else (k, v) :: mset t k0 v0

/-- Go map deletion `delete(m, k)`. -/
def mdel {α : Type} : List (Nat × α) → Nat → List (Nat × α)
  | [], _ => []
  | (k, v) :: t, k0 => if k0 = k then t else (k, v) :: mdel t k0

/-- The cache state (`cache` struct): the current-user singleton, the channel
map, the guild-to-channel relationship index, and the two TLRU-backed stores.
The bounded TLRU store is external to the repository; per spec section 6 it is
used only through get/set/delete, so both stores are embedded as plain maps
(eviction is out of scope). -/
structure CacheState where
  currentUser : User
  channels : List (Nat × Channel)
  guildChannelRelationship : List (Nat × List Nat)
  users : List (Nat × User)
  guilds : List (Nat × Guild)
deriving DecidableEq

/-- Embeds `NewCache`: empty maps and a zero-valued current user (`&disgord.User{}`). -/
def initialCache : CacheState :=
  { currentUser := ⟨0, 0⟩
    channels := []
    guildChannelRelationship := []
    users := []
    guilds := [] }

/-- Embeds `cache.registerChannelRelationship`: no-op for guild id 0, otherwise append
the channel id to the guild's list, creating the list if absent. -/
def registerChannelRelationship (guildId channelId : Nat)
    (idx : List (Nat × List Nat)) : List (Nat × List Nat) :=
  if guildId = 0 then idx
  else
    match mget idx guildId with
    | some relationships => mset idx guildId (relationships ++ [channelId])
    | none => mset idx guildId [channelId]

/-- The scan loop of `cache.destroyChannelRelationship`: removes the first
occurrence of `channelId` and reports the final value of the `blank` flag.
`blank` starts `true`, is set to `false` at the end of every non-matching
iteration, and the loop breaks on the first match — so `blank` ends up `true`
exactly when the list is empty or its first element matched. -/
def destroyScan (channelId : Nat) : List Nat → List Nat × Bool
  | [] => ([], true)
  | x :: xs =>
    if x = channelId then (xs, true)
    else ((x :: (destroyScan channelId xs).1), false)

/-- Embeds `cache.destroyChannelRelationship`: no-op for guild id 0 or an unknown
guild; otherwise runs the scan loop and, when `blank` is still set, deletes
the guild's map entry entirely. -/
def destroyChannelRelationship (guildId channelId : Nat)
    (idx : List (Nat × List Nat)) : List (Nat × List Nat) :=
  if guildId = 0 then idx
  else
    match mget idx guildId with
    | none => idx
    | some relationships =>
      let scanned := destroyScan channelId relationships
      if scanned.2 then mdel idx guildId
      else mset idx guildId scanned.1

/-- Result of running one event handler: the decoded event was returned
(`ok`), a decode error was returned (`decodeErr`), or the handler hit a Go
runtime panic such as an out-of-range index or a nil dereference
(`panicked`). -/
inductive Outcome where
  | ok
  | decodeErr
  | panicked
deriving DecidableEq

/-- Modelled from the spec: the injected deserialization capability (spec
section 6) applied to channel-shaped bytes; the decoder itself is not part of
this repository.  Present fields are merged onto the target in declaration
order; `garbled` marks syntactically malformed bytes (every decode fails, no
field is applied); `mismatch` marks a trailing field whose value does not fit
the `Channel` shape (the listed fields are applied, then the decode fails,
matching `encoding/json` partial population). -/
structure ChannelData where
  id : Option Nat
  guildID : Option Nat
  lastPinTimestamp : Option Nat
  payload : Option Nat
  mismatch : Bool
  garbled : Bool
deriving DecidableEq

/-- Field-merge of a channel payload onto a target channel. -/
def applyChannel (d : ChannelData) (t : Channel) : Channel :=
  { id := d.id.getD t.id
    guildID := d.guildID.getD t.guildID
    lastPinTimestamp := d.lastPinTimestamp.getD t.lastPinTimestamp
    payload := d.payload.getD t.payload }

/-- Embeds `json.Unmarshal(data, target)` for the `Channel` shape: the resulting
target value and the success flag. -/
def decodeChannelInto (d : ChannelData) (t : Channel) : Channel × Bool :=
  if d.garbled then (t, false) else (applyChannel d t, !d.mismatch)

/-- The zero `disgord.Channel` value. -/
def zeroChannel : Channel := ⟨0, 0, 0, 0⟩

/-- Embeds `json.Unmarshal(data, &channel)` into a fresh channel. -/
def freshChannel (d : ChannelData) : Channel := applyChannel d zeroChannel

/-- Embeds `cache.ChannelCreate`: decode a fresh channel; if the id is already cached,
re-decode the same bytes into the stored channel (merge through the stored
pointer); otherwise insert the fresh channel and register it in the
relationship index. -/
def channelCreate (d : ChannelData) (st : CacheState) : CacheState × Outcome :=
  let dec := decodeChannelInto d zeroChannel
  if dec.2 then
    let channel := dec.1
    match mget st.channels channel.id with
    | some wrapper =>
      let dec2 := decodeChannelInto d wrapper
      ({ st with channels := mset st.channels channel.id dec2.1 },
        if dec2.2 then Outcome.ok else Outcome.decodeErr)
    | none =>
      ({ st with
          channels := mset st.channels channel.id channel
          guildChannelRelationship :=
            registerChannelRelationship channel.guildID channel.id
              st.guildChannelRelationship },
        Outcome.ok)
  else (st, Outcome.decodeErr)

/-- Embeds `cache.ChannelUpdate`: decode the `idHolder` metadata first (it ignores
fields outside its own shape, so only `garbled` bytes fail it); if the channel
is cached, decode the same bytes into the stored channel — note the stored
value is mutated through its pointer even when that decode fails with a shape
mismatch; if unknown, decode a fresh channel, insert and register it. -/
def channelUpdate (d : ChannelData) (st : CacheState) : CacheState × Outcome :=
  if d.garbled then (st, Outcome.decodeErr)
  else
    let channelID := d.id.getD 0
    match mget st.channels channelID with
    | some channel =>
      let dec := decodeChannelInto d channel
      ({ st with channels := mset st.channels channelID dec.1 },
        if dec.2 then Outcome.ok else Outcome.decodeErr)
    | none =>
      let dec := decodeChannelInto d zeroChannel
      if dec.2 then
        let channel := dec.1
        ({ st with
            channels := mset st.channels channelID channel
            guildChannelRelationship :=
              registerChannelRelationship channel.guildID channel.id
                st.guildChannelRelationship },
          Outcome.ok)
      else (st, Outcome.decodeErr)

/-- Modelled from the spec: decode of `disgord.ChannelDelete`-shaped bytes
(fresh target only): the reported channel id and guild id, and a flag for any
decode failure. -/
structure ChannelDeleteData where
  id : Nat
  guildID : Nat
  malformed : Bool
deriving DecidableEq

/-- Embeds `cache.ChannelDelete`: remove the channel from the map and unregister it
from the index, keyed by the guild id the delete event reports. -/
def channelDelete (d : ChannelDeleteData) (st : CacheState) : CacheState × Outcome :=
  if d.malformed then (st, Outcome.decodeErr)
  else
    ({ st with
        channels := mdel st.channels d.id
        guildChannelRelationship :=
          destroyChannelRelationship d.guildID d.id st.guildChannelRelationship },
      Outcome.ok)

/-- Modelled from the spec: decode of `disgord.ChannelPinsUpdate`-shaped bytes
(fresh target only).  `lastPin = 0` models the zero `Time` value. -/
structure PinsData where
  channelID : Nat
  lastPin : Nat
  malformed : Bool
deriving DecidableEq

/-- Embeds `cache.ChannelPinsUpdate`: no-op on a zero timestamp; otherwise update only
the cached channel's last-pin timestamp, silently ignoring unknown channels. -/
def channelPinsUpdate (d : PinsData) (st : CacheState) : CacheState × Outcome :=
  if d.malformed then (st, Outcome.decodeErr)
  else if d.lastPin = 0 then (st, Outcome.ok)
  else
    match mget st.channels d.channelID with
    | some channel =>
      ({ st with
          channels := mset st.channels d.channelID
            { channel with lastPinTimestamp := d.lastPin } },
        Outcome.ok)
    | none => (st, Outcome.ok)

/-- Modelled from the spec: decode of user-shaped bytes, used by `UserUpdate`
(and, for the embedded `user` object, by `Ready`), merged onto the live
current-user singleton. -/
structure UserData where
  id : Option Nat
  payload : Option Nat
  mismatch : Bool
  garbled : Bool
deriving DecidableEq

/-- Field-merge of a user payload onto a target user. -/
def applyUser (d : UserData) (t : User) : User :=
  { id := d.id.getD t.id, payload := d.payload.getD t.payload }

/-- Embeds `cache.UserUpdate`: decode into an update event that embeds the live
current-user pointer, so the singleton is mutated in place — including the
partially-applied fields when the decode fails on a trailing mismatch. -/
def userUpdate (d : UserData) (st : CacheState) : CacheState × Outcome :=
  if d.garbled then (st, Outcome.decodeErr)
  else
    ({ st with currentUser := applyUser d st.currentUser },
      if d.mismatch then Outcome.decodeErr else Outcome.ok)

/-- Embeds `cache.Ready`: the ready event embeds the live current-user pointer
(`rdy.User = c.CurrentUser`), so its `user` object is merged into the
singleton in place, with the same partial-population failure mode as
`UserUpdate`. -/
def ready (d : UserData) (st : CacheState) : CacheState × Outcome :=
  if d.garbled then (st, Outcome.decodeErr)
  else
    ({ st with currentUser := applyUser d st.currentUser },
      if d.mismatch then Outcome.decodeErr else Outcome.ok)

/-- Modelled from the spec: decode of `disgord.VoiceServerUpdate`-shaped bytes. -/
structure VoiceServerData where
  malformed : Bool
deriving DecidableEq

/-- Embeds `cache.VoiceServerUpdate`: decode and return; no cache mutation. -/
def voiceServerUpdate (d : VoiceServerData) (st : CacheState) : CacheState × Outcome :=
  if d.malformed then (st, Outcome.decodeErr) else (st, Outcome.ok)

/-- Modelled from the spec: decode of `disgord.GuildMemberRemove`-shaped bytes
(fresh target only): the removed user id and the guild id. -/
structure MemberRemoveData where
  userID : Nat
  guildID : Nat
  malformed : Bool
deriving DecidableEq

/-- The swap-remove body of the `GuildMemberRemove` loop: decrement the member
count, overwrite slot `i` with the current last member, and shrink the slice
by one. -/
def swapRemoveMember (g : Guild) (i : Nat) (fallback : Member) : Guild :=
  { g with
      memberCount := g.memberCount - 1
      members := ((g.members.set i (g.members.getLast?.getD fallback)).dropLast) }

/-- The `for i := range guild.Members` loop of `GuildMemberRemove`.  Go
evaluates the range expression once, so the loop visits indices `0` to
`n - 1` for the original length `n` even after the slice shrinks; each
iteration indexes the current slice, so an index at or past the current
length is a runtime out-of-range panic (second component `true`).  There is
no `break` after a match. -/
def gmrLoop (uid : Nat) : Nat → Nat → Guild → Guild × Bool
  | 0, _, g => (g, false)
  | r + 1, i, g =>
    match g.members[i]? with
    | none => (g, true)
    | some m =>
      if m.userID = uid then gmrLoop uid r (i + 1) (swapRemoveMember g i m)
      else gmrLoop uid r (i + 1) g

/-- Embeds `cache.GuildMemberRemove`: if the guild is cached, run the scan loop over
its member list (mutating the guild through the stored pointer); absent guilds
are a silent no-op. -/
def guildMemberRemove (d : MemberRemoveData) (st : CacheState) : CacheState × Outcome :=
  if d.malformed then (st, Outcome.decodeErr)
  else
    match mget st.guilds d.guildID with
    | none => (st, Outcome.ok)
    | some g =>
      let res := gmrLoop d.userID g.members.length 0 g
      ({ st with guilds := mset st.guilds d.guildID res.1 },
        if res.2 then Outcome.panicked else Outcome.ok)

/-- Modelled from the spec: decode of `disgord.GuildMemberAdd`-shaped bytes —
member-shaped fields merged onto a `Member` target (the event payload is the
member object itself, so the initial event decode and the later merge into a
stored member read the same shape from the same bytes). -/
structure MemberAddData where
  userID : Option Nat
  guildID : Option Nat
  nick : Option Nat
  user : Option User
  mismatch : Bool
  garbled : Bool
deriving DecidableEq

/-- Field-merge of a member-add payload onto a target member. -/
def applyMember (d : MemberAddData) (t : Member) : Member :=
  { userID := d.userID.getD t.userID
    guildID := d.guildID.getD t.guildID
    nick := d.nick.getD t.nick
    user := match d.user with
      | some u => some u
      | none => t.user }

/-- The zero `disgord.Member` value. -/
def zeroMember : Member := ⟨0, 0, 0, none⟩

/-- Embeds `cache.GuildMemberAdd`: reading `gmr.Member.User.ID` dereferences the
embedded user pointer (nil ⇒ runtime panic); the user record is inserted into
the user store only if absent; then, under the guild lock, the first member
with that user id is merged in place (and its count left alone) or a copy of
the decoded member is appended and the count incremented; either way the
stored member's embedded `User` is set to nil at the end. -/
def guildMemberAdd (d : MemberAddData) (st : CacheState) : CacheState × Outcome :=
  if d.garbled || d.mismatch then (st, Outcome.decodeErr)
  else
    let m := applyMember d zeroMember
    match m.user with
    | none => (st, Outcome.panicked)
    | some u =>
      let users1 :=
        match mget st.users u.id with
        | some _ => st.users
        | none => mset st.users u.id u
      let st1 := { st with users := users1 }
      match mget st1.guilds m.guildID with
      | none => (st1, Outcome.ok)
      | some g =>
        let i := g.members.findIdx (fun mm => mm.userID = u.id)
        if i < g.members.length then
          let merged := { applyMember d (g.members.getD i zeroMember) with user := none }
          ({ st1 with
              guilds := mset st1.guilds m.guildID
                { g with members := g.members.set i merged } },
            Outcome.ok)
        else
          ({ st1 with
              guilds := mset st1.guilds m.guildID
                { g with
                    members := g.members ++ [{ m with user := none }]
                    memberCount := g.memberCount + 1 } },
            Outcome.ok)

/-- Modelled from the spec: decode of guild-shaped bytes, used by `GuildCreate`
and `GuildUpdate` whose event payloads are the guild object itself; present
fields (including whole embedded lists, which `encoding/json` replaces) are
merged onto the target guild. -/
structure GuildData where
  id : Option Nat
  unavailable : Option Bool
  memberCount : Option Int
  members : Option (List Member)
  channels : Option (List Channel)
  emojis : Option (List Emoji)
  roles : Option (List Role)
  payload : Option Nat
  mismatch : Bool
  garbled : Bool
deriving DecidableEq

/-- Field-merge of a guild payload onto a target guild. -/
def applyGuild (d : GuildData) (t : Guild) : Guild :=
  { id := d.id.getD t.id
    unavailable := d.unavailable.getD t.unavailable
    memberCount := d.memberCount.getD t.memberCount
    members := d.members.getD t.members
    channels := d.channels.getD t.channels
    emojis := d.emojis.getD t.emojis
    roles := d.roles.getD t.roles
    payload := d.payload.getD t.payload }

/-- The zero `disgord.Guild` value. -/
def zeroGuild : Guild := ⟨0, false, 0, [], [], [], [], 0⟩

/-- Embeds `json.Unmarshal(data, &guildEvt)` into a fresh guild. -/
def freshGuild (d : GuildData) : Guild := applyGuild d zeroGuild

/-- The `setChannels` closure of `GuildCreate`: delete every channel currently
indexed for the guild from the channel map, install a fresh list holding the
event guild's channel ids in order, and store a deep copy of each embedded
channel. -/
def setChannelsFor (g : Guild) (st : CacheState) : CacheState :=
  let channels1 :=
    match mget st.guildChannelRelationship g.id with
    | some relationships => relationships.foldl (fun m cid => mdel m cid) st.channels
    | none => st.channels
  { st with
      channels := g.channels.foldl (fun m ch => mset m ch.id ch) channels1
      guildChannelRelationship :=
        mset st.guildChannelRelationship g.id (g.channels.map Channel.id) }

/-- Embeds `cache.GuildCreate`: three-way decision on the cached guild — merge when
it is available and already has members (decode error of the merge is
discarded), ignore the event entirely when it is available with no members,
and otherwise (unavailable, or absent) install the event guild wholesale and
re-seed the channel map and relationship index from its embedded channels. -/
def guildCreate (d : GuildData) (st : CacheState) : CacheState × Outcome :=
  if d.garbled || d.mismatch then (st, Outcome.decodeErr)
  else
    let gv := freshGuild d
    match mget st.guilds gv.id with
    | some g =>
      if g.unavailable then
        (setChannelsFor gv { st with guilds := mset st.guilds gv.id gv }, Outcome.ok)
      else if 0 < g.members.length then
        ({ st with guilds := mset st.guilds gv.id (applyGuild d g) }, Outcome.ok)
      else (st, Outcome.ok)
    | none =>
      (setChannelsFor gv { st with guilds := mset st.guilds gv.id gv }, Outcome.ok)

/-- Embeds `cache.GuildUpdate`: replace wholesale when the cached guild is
unavailable or absent; otherwise merge the payload onto the stored guild. -/
def guildUpdate (d : GuildData) (st : CacheState) : CacheState × Outcome :=
  if d.garbled || d.mismatch then (st, Outcome.decodeErr)
  else
    let gv := freshGuild d
    match mget st.guilds gv.id with
    | some g =>
      if g.unavailable then
        ({ st with guilds := mset st.guilds gv.id gv }, Outcome.ok)
      else
        ({ st with guilds := mset st.guilds gv.id (applyGuild d g) }, Outcome.ok)
    | none => ({ st with guilds := mset st.guilds gv.id gv }, Outcome.ok)

/-- Modelled from the spec: decode of `disgord.GuildDelete`-shaped bytes
(fresh target only): the unavailable-guild id. -/
structure GuildDeleteData where
  id : Nat
  malformed : Bool
deriving DecidableEq

/-- Embeds `cache.GuildDelete`: drop the guild, cascade-delete every channel listed
in its relationship-index entry, then drop the entry. -/
def guildDelete (d : GuildDeleteData) (st : CacheState) : CacheState × Outcome :=
  if d.malformed then (st, Outcome.decodeErr)
  else
    let st1 := { st with guilds := mdel st.guilds d.id }
    match mget st1.guildChannelRelationship d.id with
    | none => (st1, Outcome.ok)
    | some relationships =>
      ({ st1 with
          channels := relationships.foldl (fun m cid => mdel m cid) st1.channels
          guildChannelRelationship := mdel st1.guildChannelRelationship d.id },
        Outcome.ok)

/-- Embeds `cache.GetMember`: linear scan of the cached guild's member list; the
source returns the stored `*disgord.Member` itself — the only read accessor
with no `DeepCopy` call. -/
def getMember (st : CacheState) (guildID userID : Nat) : Option Member :=
  match mget st.guilds guildID with
  | none => none
  | some g => g.members.find? (fun m => m.userID = userID)

/-- A caller assignment through the pointer `GetMember` returns: since that
pointer aliases the guild's stored member slot, the write lands in cache
state.  (For every other accessor the returned value is a `DeepCopy`, so a
caller write is invisible to the cache and needs no modelling.) -/
def memberWriteThrough (st : CacheState) (guildID idx : Nat) (v : Member) : CacheState :=
  match mget st.guilds guildID with
  | none => st
  | some g => { st with guilds := mset st.guilds guildID { g with members := g.members.set idx v } }

/-- Result of `cache.GetGuildRoles`: guild not cached (nil, nil), a runtime
out-of-range panic, or the returned slice (`none` entries are the nil slots
`make` left unwritten). -/
inductive RolesResult where
  | missing
  | panicked
  | result (a : List (Option Role))
deriving DecidableEq

/-- The copy loop of `GetGuildRoles`: `a[i] = role.DeepCopy()` over the
guild's roles, where `a` was allocated with the guild's emoji count — writing
past its length is a runtime panic. -/
def rolesLoop : List Role → Nat → List (Option Role) → Option (List (Option Role))
  | [], _, a => some a
  | r :: rest, i, a =>
    if i < a.length then rolesLoop rest (i + 1) (a.set i (some r))
    else none

/-- Embeds `cache.GetGuildRoles`: allocates the result slice with
`len(guild.Emojis)` — not the role count — then copies each role into it. -/
def getGuildRoles (st : CacheState) (guildID : Nat) : RolesResult :=
  match mget st.guilds guildID with
  | none => RolesResult.missing
  | some g =>
    match rolesLoop g.roles 0 (List.replicate g.emojis.length none) with
    | some a => RolesResult.result a
    | none => RolesResult.panicked

/-- One inbound event, tagged with the handler it is dispatched to, carrying
the modelled payload bytes. -/
inductive Command where
  | evReady (d : UserData)
  | evChannelCreate (d : ChannelData)
  | evChannelUpdate (d : ChannelData)
  | evChannelDelete (d : ChannelDeleteData)
  | evChannelPinsUpdate (d : PinsData)
  | evUserUpdate (d : UserData)
  | evVoiceServerUpdate (d : VoiceServerData)
  | evGuildMemberRemove (d : MemberRemoveData)
  | evGuildMemberAdd (d : MemberAddData)
  | evGuildCreate (d : GuildData)
  | evGuildUpdate (d : GuildData)
  | evGuildDelete (d : GuildDeleteData)
deriving DecidableEq

/-- Dispatch one event to its handler. -/
def applyCmd : Command → CacheState → CacheState × Outcome
  | Command.evReady d, st => ready d st
  | Command.evChannelCreate d, st => channelCreate d st
  | Command.evChannelUpdate d, st => channelUpdate d st
  | Command.evChannelDelete d, st => channelDelete d st
  | Command.evChannelPinsUpdate d, st => channelPinsUpdate d st
  | Command.evUserUpdate d, st => userUpdate d st
  | Command.evVoiceServerUpdate d, st => voiceServerUpdate d st
  | Command.evGuildMemberRemove d, st => guildMemberRemove d st
  | Command.evGuildMemberAdd d, st => guildMemberAdd d st
  | Command.evGuildCreate d, st => guildCreate d st
  | Command.evGuildUpdate d, st => guildUpdate d st
  | Command.evGuildDelete d, st => guildDelete d st

/-- The cache state after an event, whatever the outcome (Go mutates through
pointers, so the state reached before an error or panic persists). -/
def step (cmd : Command) (st : CacheState) : CacheState := (applyCmd cmd st).1

/-- Run a whole event sequence from a starting state. -/
def run (cmds : List Command) (st : CacheState) : CacheState :=
  cmds.foldl (fun s c => step c s) st

/-- A channel-ownership discipline for event streams: `owner c` is the single
guild channel id `c` belongs to (`0` = direct-message, no guild).  An event is
consistent with it when every channel it mentions reports its owner as its
guild id, and a `GuildCreate` payload has a non-zero guild id and embeds only
channels it owns.  Events that never register channels are unconstrained. -/
def consistentB (owner : Nat → Nat) : Command → Bool
  | Command.evChannelCreate d =>
    (freshChannel d).guildID = 0 || ((owner (freshChannel d).id) = (freshChannel d).guildID)
  | Command.evChannelUpdate d =>
    (freshChannel d).guildID = 0 || ((owner (freshChannel d).id) = (freshChannel d).guildID)
  | Command.evGuildCreate d =>
    (freshGuild d).id ≠ 0 &&
      (freshGuild d).channels.all (fun ch => owner ch.id = (freshGuild d).id)
  | _ => true

/-- The ownership invariant on the relationship index: every entry belongs to
a non-zero guild and lists only channels that guild owns. -/
def IndexOk (owner : Nat → Nat) (idx : List (Nat × List Nat)) : Prop :=
  ∀ p ∈ idx, p.1 ≠ 0 ∧ ∀ c ∈ p.2, owner c = p.1

theorem mget_mem {α : Type} {m : List (Nat × α)} {k : Nat} {v : α}
    (h : mget m k = some v) : (k, v) ∈ m := by
  induction m with
  | nil => simp [mget] at h
  | cons p t ih =>
    obtain ⟨k1, v1⟩ := p
    by_cases hk : k = k1
    · subst hk
      simp [mget] at h
      simp [h]
    · simp [mget, hk] at h
      exact List.mem_cons_of_mem _ (ih h)

theorem mem_mset {α : Type} {m : List (Nat × α)} {k : Nat} {v : α} {p : Nat × α}
    (h : p ∈ mset m k v) : p = (k, v) ∨ p ∈ m := by
  induction m with
  | nil => simpa [mset] using h
  | cons q t ih =>
    obtain ⟨k1, v1⟩ := q
    by_cases hk : k = k1
    · subst hk
      simp [mset] at h
      rcases h with h | h
      · exact Or.inl h
      · exact Or.inr (List.mem_cons_of_mem _ h)
    · simp [mset, hk] at h
      rcases h with h | h
      · exact Or.inr (by simp [h])
      · rcases ih h with h2 | h2
        · exact Or.inl h2
        · exact Or.inr (List.mem_cons_of_mem _ h2)

theorem mem_mdel {α : Type} {m : List (Nat × α)} {k : Nat} {p : Nat × α}
    (h : p ∈ mdel m k) : p ∈ m := by
  induction m with
  | nil => simp [mdel] at h
  | cons q t ih =>
    obtain ⟨k1, v1⟩ := q
    by_cases hk : k = k1
    · simp [mdel, hk] at h
      exact List.mem_cons_of_mem _ h
    · simp [mdel, hk] at h
      rcases h with h | h
      · simp [h]
      · exact List.mem_cons_of_mem _ (ih h)

theorem destroyScan_subset {c x : Nat} {l : List Nat}
    (h : x ∈ (destroyScan c l).1) : x ∈ l := by
  induction l with
  | nil => simp [destroyScan] at h
  | cons y t ih =>
    by_cases hy : y = c
    · simp [destroyScan, hy] at h
      simp [h]
    · simp [destroyScan, hy] at h
      rcases h with h | h
      · simp [h]
      · exact List.mem_cons_of_mem _ (ih h)

theorem indexOk_register {owner : Nat → Nat} {g c : Nat} {idx : List (Nat × List Nat)}
    (h : IndexOk owner idx) (hc : g ≠ 0 → owner c = g) :
    IndexOk owner (registerChannelRelationship g c idx) := by
  unfold registerChannelRelationship
  by_cases hg : g = 0
  · simpa [hg] using h
  · simp only [hg, if_false]
    cases hrel : mget idx g with
    | some rel =>
      intro p hp
      rcases mem_mset hp with hp1 | hp1
      · subst hp1
        refine ⟨hg, ?_⟩
        intro x hx
        rcases List.mem_append.mp hx with hx1 | hx1
        · exact ((h _ (mget_mem hrel)).2 x hx1)
        · simp at hx1
          subst hx1
          exact hc hg
      · exact h _ hp1
    | none =>
      intro p hp
      rcases mem_mset hp with hp1 | hp1
      · subst hp1
        refine ⟨hg, ?_⟩
        intro x hx
        simp at hx
        subst hx
        exact hc hg
      · exact h _ hp1

theorem indexOk_destroy {owner : Nat → Nat} {g c : Nat} {idx : List (Nat × List Nat)}
    (h : IndexOk owner idx) :
    IndexOk owner (destroyChannelRelationship g c idx) := by
  unfold destroyChannelRelationship
  by_cases hg : g = 0
  · simpa [hg] using h
  · simp only [hg, if_false]
    cases hrel : mget idx g with
    | none => exact h
    | some rel =>
      by_cases hb : (destroyScan c rel).2
      · simp only [hb, if_true]
        exact fun p hp => h _ (mem_mdel hp)
      · simp only [hb]
        intro p hp
        rcases mem_mset hp with hp1 | hp1
        · subst hp1
          exact ⟨hg, fun x hx => (h _ (mget_mem hrel)).2 x (destroyScan_subset hx)⟩
        · exact h _ hp1

theorem indexOk_mdel {owner : Nat → Nat} {g : Nat} {idx : List (Nat × List Nat)}
    (h : IndexOk owner idx) : IndexOk owner (mdel idx g) :=
  fun _ hp => h _ (mem_mdel hp)

theorem indexOk_setChannels {owner : Nat → Nat} {g : Nat} {chs : List Nat}
    {idx : List (Nat × List Nat)} (h : IndexOk owner idx) (hg : g ≠ 0)
    (hch : ∀ c ∈ chs, owner c = g) : IndexOk owner (mset idx g chs) := by
  intro p hp
  rcases mem_mset hp with hp1 | hp1
  · subst hp1
    exact ⟨hg, hch⟩
  · exact h _ hp1

theorem channelCreate_index (d : ChannelData) (st : CacheState) :
    (channelCreate d st).1.guildChannelRelationship = st.guildChannelRelationship ∨
      (channelCreate d st).1.guildChannelRelationship =
        registerChannelRelationship (freshChannel d).guildID (freshChannel d).id
          st.guildChannelRelationship := by
  unfold channelCreate
  by_cases hg : d.garbled
  · simp [decodeChannelInto, hg]
  · by_cases hm : d.mismatch
    · simp [decodeChannelInto, hg, hm]
    · simp only [decodeChannelInto, hg, hm, if_false, Bool.not_false, if_true]
      cases hmg : mget st.channels (applyChannel d zeroChannel).id <;>
        simp [hmg, freshChannel]

theorem channelUpdate_index (d : ChannelData) (st : CacheState) :
    (channelUpdate d st).1.guildChannelRelationship = st.guildChannelRelationship ∨
      (channelUpdate d st).1.guildChannelRelationship =
        registerChannelRelationship (freshChannel d).guildID (freshChannel d).id
          st.guildChannelRelationship := by
  unfold channelUpdate
  by_cases hg : d.garbled
  · simp [hg]
  · simp only [hg, if_false]
    cases hmg : mget st.channels (d.id.getD 0) with
    | some channel => simp [hmg]
    | none =>
      by_cases hm : d.mismatch
      · simp [hmg, decodeChannelInto, hg, hm]
      · simp [hmg, decodeChannelInto, hg, hm, freshChannel]

theorem channelDelete_index (d : ChannelDeleteData) (st : CacheState) :
    (channelDelete d st).1.guildChannelRelationship = st.guildChannelRelationship ∨
      (channelDelete d st).1.guildChannelRelationship =
        destroyChannelRelationship d.guildID d.id st.guildChannelRelationship := by
  unfold channelDelete
  by_cases hm : d.malformed <;> simp [hm]

theorem channelPinsUpdate_index (d : PinsData) (st : CacheState) :
    (channelPinsUpdate d st).1.guildChannelRelationship = st.guildChannelRelationship := by
  unfold channelPinsUpdate
  by_cases hm : d.malformed
  · simp [hm]
  · by_cases hz : d.lastPin = 0
    · simp [hm, hz]
    · simp only [hm, hz, if_false, if_true]
      cases hmg : mget st.channels d.channelID <;> simp [hmg]

theorem ready_index (d : UserData) (st : CacheState) :
    (ready d st).1.guildChannelRelationship = st.guildChannelRelationship := by
  unfold ready
  by_cases hg : d.garbled <;> simp [hg]

theorem userUpdate_index (d : UserData) (st : CacheState) :
    (userUpdate d st).1.guildChannelRelationship = st.guildChannelRelationship := by
  unfold userUpdate
  by_cases hg : d.garbled <;> simp [hg]

theorem voiceServerUpdate_index (d : VoiceServerData) (st : CacheState) :
    (voiceServerUpdate d st).1.guildChannelRelationship = st.guildChannelRelationship := by
  unfold voiceServerUpdate
  by_cases hm : d.malformed <;> simp [hm]

theorem guildMemberRemove_index (d : MemberRemoveData) (st : CacheState) :
    (guildMemberRemove d st).1.guildChannelRelationship = st.guildChannelRelationship := by
  unfold guildMemberRemove
  by_cases hm : d.malformed
  · simp [hm]
  · simp only [hm, if_false]
    cases hmg : mget st.guilds d.guildID <;> simp [hmg]

theorem guildMemberAdd_index (d : MemberAddData) (st : CacheState) :
    (guildMemberAdd d st).1.guildChannelRelationship = st.guildChannelRelationship := by
  unfold guildMemberAdd
  by_cases hg : d.garbled || d.mismatch
  · simp [hg]
  · simp only [hg, Bool.false_eq_true, if_false]
    cases hu : (applyMember d zeroMember).user with
    | none => simp
    | some u =>
      simp only []
      cases hst : mget st.guilds (applyMember d zeroMember).guildID with
      | none => simp [hst]
      | some g =>
        by_cases hi : (g.members.findIdx fun mm => mm.userID = u.id) < g.members.length <;>
          simp [hst, hi]

theorem guildCreate_index (d : GuildData) (st : CacheState) :
    (guildCreate d st).1.guildChannelRelationship = st.guildChannelRelationship ∨
      (guildCreate d st).1.guildChannelRelationship =
        mset st.guildChannelRelationship (freshGuild d).id
          ((freshGuild d).channels.map Channel.id) := by
  unfold guildCreate
  by_cases hg : d.garbled || d.mismatch
  · simp [hg]
  · simp only [hg, Bool.false_eq_true, if_false]
    cases hst : mget st.guilds (freshGuild d).id with
    | none => simp [hst, setChannelsFor]
    | some g =>
      by_cases hun : g.unavailable
      · simp [hst, hun, setChannelsFor]
      · by_cases hmem : 0 < g.members.length <;> simp [hst, hun, hmem]

theorem guildUpdate_index (d : GuildData) (st : CacheState) :
    (guildUpdate d st).1.guildChannelRelationship = st.guildChannelRelationship := by
  unfold guildUpdate
  by_cases hg : d.garbled || d.mismatch
  · simp [hg]
  · simp only [hg, Bool.false_eq_true, if_false]
    cases hst : mget st.guilds (freshGuild d).id with
    | none => simp [hst]
    | some g => by_cases hun : g.unavailable <;> simp [hst, hun]

theorem guildDelete_index (d : GuildDeleteData) (st : CacheState) :
    (guildDelete d st).1.guildChannelRelationship = st.guildChannelRelationship ∨
      (guildDelete d st).1.guildChannelRelationship =
        mdel st.guildChannelRelationship d.id := by
  unfold guildDelete
  by_cases hm : d.malformed
  · simp [hm]
  · simp only [hm, if_false]
    cases hmg : mget st.guildChannelRelationship d.id <;> simp [hmg]

theorem step_preserves_indexOk (owner : Nat → Nat) (cmd : Command) (st : CacheState)
    (hc : consistentB owner cmd = true)
    (h : IndexOk owner st.guildChannelRelationship) :
    IndexOk owner (step cmd st).guildChannelRelationship := by
  cases cmd with
  | evReady d => rw [step, applyCmd, ready_index]; exact h
  | evUserUpdate d => rw [step, applyCmd, userUpdate_index]; exact h
  | evVoiceServerUpdate d => rw [step, applyCmd, voiceServerUpdate_index]; exact h
  | evChannelPinsUpdate d => rw [step, applyCmd, channelPinsUpdate_index]; exact h
  | evGuildMemberRemove d => rw [step, applyCmd, guildMemberRemove_index]; exact h
  | evGuildMemberAdd d => rw [step, applyCmd, guildMemberAdd_index]; exact h
  | evGuildUpdate d => rw [step, applyCmd, guildUpdate_index]; exact h
  | evChannelCreate d =>
    simp only [consistentB, Bool.or_eq_true, decide_eq_true_eq] at hc
    rw [step, applyCmd]
    rcases channelCreate_index d st with he | he
    · rw [he]; exact h
    · rw [he]
      refine indexOk_register h ?_
      intro hne
      rcases hc with hc | hc
      · exact absurd hc hne
      · exact hc
  | evChannelUpdate d =>
    simp only [consistentB, Bool.or_eq_true, decide_eq_true_eq] at hc
    rw [step, applyCmd]
    rcases channelUpdate_index d st with he | he
    · rw [he]; exact h
    · rw [he]
      refine indexOk_register h ?_
      intro hne
      rcases hc with hc | hc
      · exact absurd hc hne
      · exact hc
  | evChannelDelete d =>
    rw [step, applyCmd]
    rcases channelDelete_index d st with he | he
    · rw [he]; exact h
    · rw [he]; exact indexOk_destroy h
  | evGuildCreate d =>
    simp only [consistentB, Bool.and_eq_true, decide_eq_true_eq, List.all_eq_true] at hc
    rw [step, applyCmd]
    rcases guildCreate_index d st with he | he
    · rw [he]; exact h
    · rw [he]
      refine indexOk_setChannels h hc.1 ?_
      intro c hcmem
      rcases List.mem_map.mp hcmem with ⟨ch, hch, hcid⟩
      rw [← hcid]
      exact hc.2 ch hch
  | evGuildDelete d =>
    rw [step, applyCmd]
    rcases guildDelete_index d st with he | he
    · rw [he]; exact h
    · rw [he]; exact indexOk_mdel h

theorem run_preserves_indexOk (owner : Nat → Nat) (cmds : List Command)
    (st : CacheState) (hc : ∀ cmd ∈ cmds, consistentB owner cmd = true)
    (h : IndexOk owner st.guildChannelRelationship) :
    IndexOk owner (run cmds st).guildChannelRelationship := by
  induction cmds generalizing st with
  | nil => exact h
  | cons cmd rest ih =>
    rw [run, List.foldl_cons]
    exact ih _ (fun c hcm => hc c (List.mem_cons_of_mem _ hcm))
      (step_preserves_indexOk owner cmd st (hc cmd (List.mem_cons_self _ _)) h)

/-- No two entries of an association-list map share a key (always true of the
embedding of a Go map built by `mset`/`mdel` from empty). -/
def NoDupKeys {α : Type} (m : List (Nat × α)) : Prop := (m.map Prod.fst).Nodup

theorem key_mem_of_mem {α : Type} {m : List (Nat × α)} {p : Nat × α}
    (h : p ∈ m) : p.1 ∈ m.map Prod.fst :=
  List.mem_map.mpr ⟨p, h, rfl⟩

theorem nodupKeys_mset {α : Type} {m : List (Nat × α)} {k : Nat} {v : α}
    (h : NoDupKeys m) : NoDupKeys (mset m k v) := by
  induction m with
  | nil => simp [NoDupKeys, mset]
  | cons q t ih =>
    obtain ⟨k1, v1⟩ := q
    unfold NoDupKeys at h
    simp only [List.map_cons, List.nodup_cons] at h
    by_cases hk : k = k1
    · subst hk
      simpa [NoDupKeys, mset] using h
    · unfold NoDupKeys
      simp only [mset, hk, if_false, List.map_cons, List.nodup_cons]
      refine ⟨?_, ih h.2⟩
      intro hmem
      rcases List.mem_map.mp hmem with ⟨p, hp, hp1⟩
      rcases mem_mset hp with hp2 | hp2
      · subst hp2
        exact hk hp1
      · exact h.1 (hp1 ▸ key_mem_of_mem hp2)

theorem mdel_sublist {α : Type} (m : List (Nat × α)) (k : Nat) :
    List.Sublist (mdel m k) m := by
  induction m with
  | nil => simp [mdel]
  | cons q t ih =>
    obtain ⟨k1, v1⟩ := q
    by_cases hk : k = k1
    · simp only [mdel, hk, if_true]
      exact List.sublist_cons_self _ _
    · simp only [mdel, hk, if_false]
      exact List.Sublist.cons₂ _ ih

theorem nodupKeys_mdel {α : Type} {m : List (Nat × α)} {k : Nat}
    (h : NoDupKeys m) : NoDupKeys (mdel m k) :=
  List.Nodup.sublist (List.Sublist.map Prod.fst (mdel_sublist m k)) h

theorem mem_mdel_keyne {α : Type} {m : List (Nat × α)} {k : Nat} {p : Nat × α}
    (hnd : NoDupKeys m) (h : p ∈ mdel m k) : p.1 ≠ k := by
  induction m with
  | nil => simp [mdel] at h
  | cons q t ih =>
    obtain ⟨k1, v1⟩ := q
    unfold NoDupKeys at hnd
    simp only [List.map_cons, List.nodup_cons] at hnd
    by_cases hk : k = k1
    · subst hk
      simp only [mdel, if_true] at h
      intro hpk
      exact hnd.1 (hpk ▸ key_mem_of_mem h)
    · simp only [mdel, hk, if_false] at h
      rcases List.mem_cons.mp h with h1 | h1
      · subst h1
        exact fun heq => hk heq.symm
      · exact ih hnd.2 h1

theorem foldl_mdel_eq_nil {α : Type} {m : List (Nat × α)} {ids : List Nat}
    (hnd : NoDupKeys m) (hk : ∀ p ∈ m, p.1 ∈ ids) :
    ids.foldl (fun acc c => mdel acc c) m = [] := by
  induction ids generalizing m with
  | nil =>
    cases m with
    | nil => rfl
    | cons p t => exact absurd (hk p (List.mem_cons_self _ _)) (by simp)
  | cons i rest ih =>
    rw [List.foldl_cons]
    refine ih (nodupKeys_mdel hnd) ?_
    intro p hp
    have h2 := hk p (mem_mdel hp)
    have h3 := mem_mdel_keyne hnd hp
    rcases List.mem_cons.mp h2 with h4 | h4
    · exact absurd h4 h3
    · exact h4

theorem mget_mset_ne {α : Type} {m : List (Nat × α)} {k k0 : Nat} {v : α}
    (h : k ≠ k0) : mget (mset m k0 v) k = mget m k := by
  induction m with
  | nil => simp [mset, mget, h]
  | cons q t ih =>
    obtain ⟨k1, v1⟩ := q
    by_cases hk : k0 = k1
    · subst hk
      simp [mset, mget, h]
    · simp only [mset, hk, if_false]
      by_cases hkk : k = k1
      · simp [mget, hkk]
      · simp [mget, hkk, ih]

theorem mem_buildChannels {m0 : List (Nat × Channel)} {chs : List Channel}
    {p : Nat × Channel}
    (h : p ∈ chs.foldl (fun m ch => mset m ch.id ch) m0) :
    p ∈ m0 ∨ p.1 ∈ chs.map Channel.id := by
  induction chs generalizing m0 with
  | nil => exact Or.inl h
  | cons ch rest ih =>
    rw [List.foldl_cons] at h
    rcases ih h with h1 | h1
    · rcases mem_mset h1 with h2 | h2
      · subst h2
        exact Or.inr (by simp)
      · exact Or.inl h2
    · exact Or.inr (by simp [h1])

theorem nodupKeys_buildChannels {m0 : List (Nat × Channel)} {chs : List Channel}
    (h : NoDupKeys m0) :
    NoDupKeys (chs.foldl (fun m ch => mset m ch.id ch) m0) := by
  induction chs generalizing m0 with
  | nil => exact h
  | cons ch rest ih =>
    rw [List.foldl_cons]
    exact ih (nodupKeys_mset h)

theorem mget_buildChannels_notmem {m0 : List (Nat × Channel)} {chs : List Channel}
    {cid : Nat} (h : cid ∉ chs.map Channel.id) :
    mget (chs.foldl (fun m ch => mset m ch.id ch) m0) cid = mget m0 cid := by
  induction chs generalizing m0 with
  | nil => rfl
  | cons ch rest ih =>
    simp only [List.map_cons, List.mem_cons] at h
    push_neg at h
    rw [List.foldl_cons, ih h.2, mget_mset_ne h.1]

theorem mget_mset_self {α : Type} (m : List (Nat × α)) (k : Nat) (v : α) :
    mget (mset m k v) k = some v := by
  induction m with
  | nil => simp [mset, mget]
  | cons q t ih =>
    obtain ⟨k1, v1⟩ := q
    by_cases hk : k = k1
    · subst hk
      simp [mset, mget]
    · simp [mset, mget, hk, ih]

/-- Concrete guild with two members, used to exercise `GuildMemberRemove`. -/
def gmrGuild : Guild := { zeroGuild with
  id := 5
  memberCount := 2
  members := [⟨1, 5, 0, none⟩, ⟨2, 5, 0, none⟩] }

/-- Cache holding `gmrGuild`. -/
def gmrState : CacheState := { initialCache with guilds := [(5, gmrGuild)] }

/-- C2: the claim that `destroyChannelRelationship` "deletes the guild's index
entry if and only if the list is empty after that removal" fails on the code:
with list `[10, 20]`, unregistering `10` matches the first element, so the
loop breaks before the `blank` flag is ever cleared and the whole entry for
guild `1` is deleted — even though the list still holds `20` (second
conjunct).  The spec's stated behavior would keep the entry as `[(1, [20])]`. -/
theorem C2_unregister_front_match_deletes_entry :
    destroyChannelRelationship 1 10 [(1, [10, 20])] = [] ∧
      (destroyScan 10 [10, 20]).1 = [20] ∧
      destroyChannelRelationship 1 20 [(1, [10, 20])] = [(1, [10])] := by decide

/-- C3: the claim that `GuildMemberRemove` swap-removes a cached member and
completes fails on the code: the loop has no `break` and Go fixes the range
length up front, so after removing member `1` (at index 0 of two) the loop
indexes past the shrunken slice and panics with an out-of-range error.  Only
removal of the member in the last slot completes (second conjunct); the third
conjunct shows the swap-remove had already been applied (count decremented,
list shrunk) when the panic hit. -/
theorem C3_member_remove_nonlast_panics :
    (guildMemberRemove ⟨1, 5, false⟩ gmrState).2 = Outcome.panicked ∧
      (guildMemberRemove ⟨2, 5, false⟩ gmrState).2 = Outcome.ok ∧
      (guildMemberRemove ⟨1, 5, false⟩ gmrState).1.guilds =
        [(5, { gmrGuild with
                memberCount := 1
                members := [⟨2, 5, 0, none⟩] })] := by decide

/-- Member stored in the guild used for the `GetMember` aliasing check. -/
def aliasMember : Member := ⟨9, 1, 1, none⟩

/-- Cache with one guild holding `aliasMember` in slot 0. -/
def aliasState : CacheState := { initialCache with
  guilds := [(1, { zeroGuild with
    id := 1
    memberCount := 1
    members := [aliasMember] })] }

/-- C4: the claim that every read accessor returns a deep, independent copy
fails on `GetMember`, the one accessor with no `DeepCopy` call: it returns
the stored `*disgord.Member` itself.  A caller write through that pointer
(`memberWriteThrough` at the member's slot) lands in cache state, and the
next `GetMember` observes the mutated value — a nonzero observable effect. -/
theorem C4_getMember_returns_live_storage :
    getMember aliasState 1 9 = some aliasMember ∧
      getMember (memberWriteThrough aliasState 1 0 ⟨9, 1, 2, none⟩) 1 9 =
        some ⟨9, 1, 2, none⟩ ∧
      (⟨9, 1, 2, none⟩ : Member) ≠ aliasMember := by decide

/-- Cache with two guilds exercising both failure modes of `GetGuildRoles`:
guild 5 has more roles than emojis, guild 6 fewer. -/
def rolesState : CacheState := { initialCache with
  guilds :=
    [(5, { zeroGuild with
        id := 5
        emojis := [⟨1, 0⟩]
        roles := [⟨1, 0⟩, ⟨2, 0⟩] }),
      (6, { zeroGuild with
        id := 6
        emojis := [⟨1, 0⟩, ⟨2, 0⟩]
        roles := [⟨1, 7⟩] })] }

/-- C10: the claim that `GetGuildRoles` returns, without faulting, one copy
per role fails on the code, which sizes the result slice by
`len(guild.Emojis)`: with 2 roles and 1 emoji the copy loop writes past the
slice and panics; with 1 role and 2 emojis it returns a slice of length 2
whose second slot is a nil leftover. -/
theorem C10_roles_slice_sized_by_emojis :
    getGuildRoles rolesState 5 = RolesResult.panicked ∧
      getGuildRoles rolesState 6 = RolesResult.result [some ⟨1, 7⟩, none] := by decide

/-- Update payload whose trailing field mismatches the channel shape. -/
def partialChannelData : ChannelData := ⟨some 1, none, none, some 9, true, false⟩

/-- Cache holding channel 1 with payload 5. -/
def partialChannelState : CacheState :=
  { initialCache with channels := [(1, ⟨1, 0, 0, 5⟩)] }

/-- C1: the claim that a decode error always leaves cache state exactly as
before fails on `ChannelUpdate`: the metadata decode (which ignores fields
outside the `idHolder` shape) succeeds, the handler then decodes the same
bytes into the *stored* channel, and that decode applies the payload field
before failing on the trailing mismatch — so the handler returns a decode
error with the cached channel already mutated (payload 5 became 9). -/
theorem C1_channelUpdate_error_after_mutation :
    (channelUpdate partialChannelData partialChannelState).2 = Outcome.decodeErr ∧
      (channelUpdate partialChannelData partialChannelState).1 ≠ partialChannelState ∧
      (channelUpdate partialChannelData partialChannelState).1.channels =
        [(1, ⟨1, 0, 0, 9⟩)] := by decide

/-- C8: for every well-decoded `ChannelPinsUpdate` event: a zero pin timestamp
mutates nothing at all; an unknown channel is silently ignored without error;
and for a cached channel only its last-pin-timestamp field changes — the
updated entry differs from the old one in exactly that field, every other
channel key reads back unchanged, and the rest of the cache state is carried
over untouched by the record update. -/
theorem C8_pins_update_frame (d : PinsData) (st : CacheState)
    (hok : d.malformed = false) :
    (d.lastPin = 0 → channelPinsUpdate d st = (st, Outcome.ok)) ∧
    (mget st.channels d.channelID = none → channelPinsUpdate d st = (st, Outcome.ok)) ∧
    (∀ ch, d.lastPin ≠ 0 → mget st.channels d.channelID = some ch →
      channelPinsUpdate d st =
        ({ st with channels := mset st.channels d.channelID { ch with lastPinTimestamp := d.lastPin } }, Outcome.ok) ∧
      mget (channelPinsUpdate d st).1.channels d.channelID =
        some { ch with lastPinTimestamp := d.lastPin } ∧
      ∀ k, k ≠ d.channelID →
        mget (channelPinsUpdate d st).1.channels k = mget st.channels k) := by
  refine ⟨?_, ?_, ?_⟩
  · intro hz
    simp [channelPinsUpdate, hok, hz]
  · intro hn
    unfold channelPinsUpdate
    by_cases hz : d.lastPin = 0
    · simp [hok, hz]
    · simp [hok, hz, hn]
  · intro ch hz hc
    have he : channelPinsUpdate d st =
        ({ st with channels := mset st.channels d.channelID { ch with lastPinTimestamp := d.lastPin } }, Outcome.ok) := by
      simp [channelPinsUpdate, hok, hz, hc]
    refine ⟨he, ?_, ?_⟩
    · rw [he]
      exact mget_mset_self _ _ _
    · intro k hk
      rw [he]
      exact mget_mset_ne hk

/-- Concrete pins event with a non-zero timestamp for channel 1. -/
def pinsData0 : PinsData := ⟨1, 42, false⟩

/-- Witness for C8 at a concrete cached channel. -/
theorem C8_pins_update_frame_witness :
    pinsData0.malformed = false ∧
    ((pinsData0.lastPin = 0 →
        channelPinsUpdate pinsData0 partialChannelState = (partialChannelState, Outcome.ok)) ∧
      (mget partialChannelState.channels pinsData0.channelID = none →
        channelPinsUpdate pinsData0 partialChannelState = (partialChannelState, Outcome.ok)) ∧
      (∀ ch, pinsData0.lastPin ≠ 0 →
        mget partialChannelState.channels pinsData0.channelID = some ch →
        channelPinsUpdate pinsData0 partialChannelState =
          ({ partialChannelState with channels := mset partialChannelState.channels pinsData0.channelID { ch with lastPinTimestamp := pinsData0.lastPin } }, Outcome.ok) ∧
        mget (channelPinsUpdate pinsData0 partialChannelState).1.channels
            pinsData0.channelID =
          some { ch with lastPinTimestamp := pinsData0.lastPin } ∧
        ∀ k, k ≠ pinsData0.channelID →
          mget (channelPinsUpdate pinsData0 partialChannelState).1.channels k =
            mget partialChannelState.channels k)) :=
  ⟨rfl, C8_pins_update_frame pinsData0 partialChannelState rfl⟩

/-- C1 (amended): a decode error leaves the cache untouched for every handler
whose failing decode targets a freshly allocated value — that is all of them
except the three that decode into live cache state and can fail independently
of the handler's initial decode: `ChannelUpdate`'s cached-channel path (the
stored channel), and `Ready` and `UserUpdate` (the current-user singleton).
For those three, the guarantee holds whenever the failure is not a trailing
shape mismatch (in particular for all syntactically malformed bytes); a shape
mismatch there returns the error after the target was partially updated, as
the C1 counterexample shows. -/
theorem C1_amended_decode_error_isolation :
    (∀ (d : ChannelData) (st : CacheState),
      (channelCreate d st).2 = Outcome.decodeErr → (channelCreate d st).1 = st) ∧
    (∀ (d : ChannelDeleteData) (st : CacheState),
      (channelDelete d st).2 = Outcome.decodeErr → (channelDelete d st).1 = st) ∧
    (∀ (d : PinsData) (st : CacheState),
      (channelPinsUpdate d st).2 = Outcome.decodeErr → (channelPinsUpdate d st).1 = st) ∧
    (∀ (d : VoiceServerData) (st : CacheState),
      (voiceServerUpdate d st).2 = Outcome.decodeErr → (voiceServerUpdate d st).1 = st) ∧
    (∀ (d : MemberRemoveData) (st : CacheState),
      (guildMemberRemove d st).2 = Outcome.decodeErr → (guildMemberRemove d st).1 = st) ∧
    (∀ (d : MemberAddData) (st : CacheState),
      (guildMemberAdd d st).2 = Outcome.decodeErr → (guildMemberAdd d st).1 = st) ∧
    (∀ (d : GuildData) (st : CacheState),
      (guildCreate d st).2 = Outcome.decodeErr → (guildCreate d st).1 = st) ∧
    (∀ (d : GuildData) (st : CacheState),
      (guildUpdate d st).2 = Outcome.decodeErr → (guildUpdate d st).1 = st) ∧
    (∀ (d : GuildDeleteData) (st : CacheState),
      (guildDelete d st).2 = Outcome.decodeErr → (guildDelete d st).1 = st) ∧
    (∀ (d : ChannelData) (st : CacheState), d.mismatch = false →
      (channelUpdate d st).2 = Outcome.decodeErr → (channelUpdate d st).1 = st) ∧
    (∀ (d : UserData) (st : CacheState), d.mismatch = false →
      (ready d st).2 = Outcome.decodeErr → (ready d st).1 = st) ∧
    (∀ (d : UserData) (st : CacheState), d.mismatch = false →
      (userUpdate d st).2 = Outcome.decodeErr → (userUpdate d st).1 = st) := by
  refine ⟨?_, ?_, ?_, ?_, ?_, ?_, ?_, ?_, ?_, ?_, ?_, ?_⟩
  · intro d st h
    unfold channelCreate at h ⊢
    by_cases hg : d.garbled
    · simp [decodeChannelInto, hg]
    · by_cases hm : d.mismatch
      · simp [decodeChannelInto, hg, hm]
      · simp only [decodeChannelInto, hg, hm, if_false, Bool.not_false, if_true] at h
        cases hmg : mget st.channels (applyChannel d zeroChannel).id <;>
          simp [hmg] at h
  · intro d st h
    unfold channelDelete at h ⊢
    by_cases hm : d.malformed
    · simp [hm]
    · simp [hm] at h
  · intro d st h
    unfold channelPinsUpdate at h ⊢
    by_cases hm : d.malformed
    · simp [hm]
    · by_cases hz : d.lastPin = 0
      · simp [hm, hz] at h
      · simp only [hm, hz, if_false, if_true] at h
        cases hmg : mget st.channels d.channelID <;> simp [hmg] at h
  · intro d st h
    unfold voiceServerUpdate at h ⊢
    by_cases hm : d.malformed
    · simp [hm]
    · simp [hm] at h
  · intro d st h
    unfold guildMemberRemove at h ⊢
    by_cases hm : d.malformed
    · simp [hm]
    · simp only [hm, if_false] at h
      cases hmg : mget st.guilds d.guildID with
      | none => simp [hmg] at h
      | some g =>
        simp only [hmg] at h
        by_cases hp : (gmrLoop d.userID g.members.length 0 g).2 <;> simp [hp] at h
  · intro d st h
    unfold guildMemberAdd at h ⊢
    by_cases hg : d.garbled || d.mismatch
    · simp [hg]
    · simp only [hg, Bool.false_eq_true, if_false] at h
      cases hu : (applyMember d zeroMember).user with
      | none => simp [hu] at h
      | some u =>
        simp only [hu] at h
        cases hst : mget st.guilds (applyMember d zeroMember).guildID with
        | none => simp [hst] at h
        | some g =>
          by_cases hi :
              (g.members.findIdx fun mm => mm.userID = u.id) < g.members.length <;>
            simp [hst, hi] at h
  · intro d st h
    unfold guildCreate at h ⊢
    by_cases hg : d.garbled || d.mismatch
    · simp [hg]
    · simp only [hg, Bool.false_eq_true, if_false] at h
      cases hst : mget st.guilds (freshGuild d).id with
      | none => simp [hst] at h
      | some g =>
        by_cases hun : g.unavailable
        · simp [hst, hun] at h
        · by_cases hmem : 0 < g.members.length <;> simp [hst, hun, hmem] at h
  · intro d st h
    unfold guildUpdate at h ⊢
    by_cases hg : d.garbled || d.mismatch
    · simp [hg]
    · simp only [hg, Bool.false_eq_true, if_false] at h
      cases hst : mget st.guilds (freshGuild d).id with
      | none => simp [hst] at h
      | some g => by_cases hun : g.unavailable <;> simp [hst, hun] at h
  · intro d st h
    unfold guildDelete at h ⊢
    by_cases hm : d.malformed
    · simp [hm]
    · simp only [hm, if_false] at h
      cases hmg : mget st.guildChannelRelationship d.id <;> simp [hmg] at h
  · intro d st hm h
    unfold channelUpdate at h ⊢
    by_cases hg : d.garbled
    · simp [hg]
    · simp only [hg, if_false] at h
      cases hmg : mget st.channels (d.id.getD 0) with
      | some channel => simp [hmg, decodeChannelInto, hg, hm] at h
      | none => simp [hmg, decodeChannelInto, hg, hm] at h
  · intro d st hm h
    unfold ready at h ⊢
    by_cases hg : d.garbled
    · simp [hg]
    · simp [hg, hm] at h
  · intro d st hm h
    unfold userUpdate at h ⊢
    by_cases hg : d.garbled
    · simp [hg]
    · simp [hg, hm] at h

/-- Channel payload with syntactically malformed bytes. -/
def garbledChannelData : ChannelData := ⟨none, none, none, none, false, true⟩

/-- Witness for C1 (amended): `ChannelCreate` on malformed bytes errors with
the initial cache unchanged. -/
theorem C1_amended_witness :
    (channelCreate garbledChannelData initialCache).2 = Outcome.decodeErr ∧
      (channelCreate garbledChannelData initialCache).1 = initialCache :=
  ⟨by decide,
    C1_amended_decode_error_isolation.1 garbledChannelData initialCache (by decide)⟩

/-- C7: for every well-decoded `GuildMemberAdd` event whose member carries a
user: the handler completes; the user record is inserted into the user store
only when absent and an existing cached user is never overwritten; and for a
cached guild, a member with that user id is merged in place (member count and
list length unchanged, the slot rewritten with the payload merged onto it and
its embedded user cleared), while an absent user id appends a copy with a
cleared user and increments the member count by exactly one. -/
theorem C7_member_add (d : MemberAddData) (st : CacheState) (u : User)
    (hg : d.garbled = false) (hm : d.mismatch = false)
    (hu : (applyMember d zeroMember).user = some u) :
    (guildMemberAdd d st).2 = Outcome.ok ∧
    (mget st.users u.id = none → mget (guildMemberAdd d st).1.users u.id = some u) ∧
    (∀ u0, mget st.users u.id = some u0 →
      mget (guildMemberAdd d st).1.users u.id = some u0) ∧
    (∀ g, mget st.guilds (applyMember d zeroMember).guildID = some g →
      ((g.members.findIdx fun mm => mm.userID = u.id) < g.members.length →
        mget (guildMemberAdd d st).1.guilds (applyMember d zeroMember).guildID =
          some { g with members := g.members.set (g.members.findIdx fun mm => mm.userID = u.id) { applyMember d (g.members.getD (g.members.findIdx fun mm => mm.userID = u.id) zeroMember) with user := none } }) ∧
      (¬ (g.members.findIdx fun mm => mm.userID = u.id) < g.members.length →
        mget (guildMemberAdd d st).1.guilds (applyMember d zeroMember).guildID =
          some { g with members := g.members ++ [{ applyMember d zeroMember with user := none }], memberCount := g.memberCount + 1 })) := by
  have hgm : (d.garbled || d.mismatch) = false := by simp [hg, hm]
  refine ⟨?_, ?_, ?_, ?_⟩
  · unfold guildMemberAdd
    simp only [hgm, Bool.false_eq_true, if_false, hu]
    cases hgd : mget st.guilds (applyMember d zeroMember).guildID with
    | none => simp [hgd]
    | some g =>
      by_cases hi : (g.members.findIdx fun mm => mm.userID = u.id) < g.members.length <;>
        simp [hgd, hi]
  · intro hun
    unfold guildMemberAdd
    simp only [hgm, Bool.false_eq_true, if_false, hu, hun]
    cases hgd : mget st.guilds (applyMember d zeroMember).guildID with
    | none => simp [hgd, mget_mset_self]
    | some g =>
      by_cases hi : (g.members.findIdx fun mm => mm.userID = u.id) < g.members.length <;>
        simp [hgd, hi, mget_mset_self]
  · intro u0 hus
    unfold guildMemberAdd
    simp only [hgm, Bool.false_eq_true, if_false, hu, hus]
    cases hgd : mget st.guilds (applyMember d zeroMember).guildID with
    | none => simp [hgd, hus]
    | some g =>
      by_cases hi : (g.members.findIdx fun mm => mm.userID = u.id) < g.members.length <;>
        simp [hgd, hi, hus]
  · intro g hgd
    constructor
    · intro hi
      unfold guildMemberAdd
      simp only [hgm, Bool.false_eq_true, if_false, hu]
      simp [hgd, hi, mget_mset_self]
    · intro hi
      unfold guildMemberAdd
      simp only [hgm, Bool.false_eq_true, if_false, hu]
      simp [hgd, hi, mget_mset_self]

/-- Concrete member-add payload: user id 3 joining guild 5. -/
def memberAddData0 : MemberAddData := ⟨some 3, some 5, some 4, some ⟨3, 8⟩, false, false⟩

/-- Cache holding guild 5 with one existing member (user id 1). -/
def memberAddState0 : CacheState := { initialCache with
  guilds := [(5, { zeroGuild with
    id := 5
    memberCount := 1
    members := [⟨1, 5, 0, none⟩] })] }

/-- Witness for C7 at a concrete absent user: the handler completes and the
user record lands in the user store. -/
theorem C7_member_add_witness :
    (memberAddData0.garbled = false ∧ memberAddData0.mismatch = false ∧
      (applyMember memberAddData0 zeroMember).user = some ⟨3, 8⟩) ∧
    (guildMemberAdd memberAddData0 memberAddState0).2 = Outcome.ok ∧
    mget (guildMemberAdd memberAddData0 memberAddState0).1.users 3 = some ⟨3, 8⟩ :=
  ⟨⟨rfl, rfl, by decide⟩,
    (C7_member_add memberAddData0 memberAddState0 ⟨3, 8⟩ rfl rfl (by decide)).1,
    (C7_member_add memberAddData0 memberAddState0 ⟨3, 8⟩ rfl rfl (by decide)).2.1 (by decide)⟩

/-- Running `GuildCreate` on well-decoded bytes from the empty cache installs
the fresh guild, seeds the channel map from its embedded channels, and indexes
their ids under the event's guild id. -/
theorem guildCreate_from_empty (d : GuildData)
    (hg : d.garbled = false) (hm : d.mismatch = false) :
    (guildCreate d initialCache).1 =
      { currentUser := ⟨0, 0⟩
        channels := (freshGuild d).channels.foldl (fun m ch => mset m ch.id ch) []
        guildChannelRelationship :=
          [((freshGuild d).id, (freshGuild d).channels.map Channel.id)]
        users := []
        guilds := [((freshGuild d).id, freshGuild d)] } := by
  simp [guildCreate, hg, hm, initialCache, mget, setChannelsFor, mset]

/-- First event: guild 7, available, three channels, no members, payload 1. -/
def guildData1 : GuildData :=
  ⟨some 7, some false, none, none,
    some [⟨10, 7, 0, 0⟩, ⟨11, 7, 0, 0⟩, ⟨12, 7, 0, 0⟩], none, none, some 1, false, false⟩

/-- Second event: guild 7, available, one member, payload 2. -/
def guildData2 : GuildData :=
  ⟨some 7, some false, none, some [⟨9, 7, 0, none⟩], none, none, none, some 2, false, false⟩

/-- C5 counterexample: after `GuildCreate(A, available, 3 channels)` — with no
members in the first payload — a second `GuildCreate(A, available, non-empty
member list)` is NOT merged: the handler branches on the *stored* guild's
member list, which is empty, so the event is treated as a duplicate and
ignored; the stored guild is still the first event's value (payload 1), while
a merge would have produced a different guild (payload 2). -/
theorem C5_counterexample_duplicate_ignored :
    mget (guildCreate guildData2 (guildCreate guildData1 initialCache).1).1.guilds 7
        = some (freshGuild guildData1) ∧
      freshGuild guildData1 ≠ applyGuild guildData2 (freshGuild guildData1) := by decide

/-- C5 (amended): the second `GuildCreate` payload is merged onto the stored
guild — rather than replacing it — provided the stored guild already has
members, i.e. the first event carried a non-empty member list; and the
channel ids from the first event remain registered in the relationship index
under the guild, untouched by the merge.  (When the stored guild has no
members the second event is ignored entirely, as the counterexample shows;
the index is equally untouched then.) -/
theorem C5_amended_merge_needs_cached_members (d1 d2 : GuildData)
    (h1g : d1.garbled = false) (h1m : d1.mismatch = false)
    (h2g : d2.garbled = false) (h2m : d2.mismatch = false)
    (hid : (freshGuild d2).id = (freshGuild d1).id)
    (hav : (freshGuild d1).unavailable = false)
    (hmem : (freshGuild d1).members ≠ []) :
    mget (guildCreate d2 (guildCreate d1 initialCache).1).1.guilds (freshGuild d1).id
        = some (applyGuild d2 (freshGuild d1)) ∧
      mget (guildCreate d2 (guildCreate d1 initialCache).1).1.guildChannelRelationship
          (freshGuild d1).id
        = some ((freshGuild d1).channels.map Channel.id) := by
  have hlen : 0 < (freshGuild d1).members.length := List.length_pos.mpr hmem
  rw [guildCreate_from_empty d1 h1g h1m]
  constructor
  · simp [guildCreate, h2g, h2m, mget, mset, hid, hav, hlen]
  · simp [guildCreate, h2g, h2m, mget, mset, hid, hav, hlen]

/-- First event with members: guild 7, available, three channels, one member. -/
def guildData1M : GuildData :=
  ⟨some 7, some false, none, some [⟨1, 7, 0, none⟩],
    some [⟨10, 7, 0, 0⟩, ⟨11, 7, 0, 0⟩, ⟨12, 7, 0, 0⟩], none, none, some 1, false, false⟩

/-- Witness for C5 (amended): with a member cached by the first event, the
second payload is merged and the three channel ids stay indexed. -/
theorem C5_amended_witness :
    ((freshGuild guildData1M).unavailable = false ∧
      (freshGuild guildData1M).members ≠ [] ∧
      (freshGuild guildData2).id = (freshGuild guildData1M).id) ∧
    mget (guildCreate guildData2 (guildCreate guildData1M initialCache).1).1.guilds
        (freshGuild guildData1M).id
      = some (applyGuild guildData2 (freshGuild guildData1M)) ∧
    mget (guildCreate guildData2
          (guildCreate guildData1M initialCache).1).1.guildChannelRelationship
        (freshGuild guildData1M).id
      = some ((freshGuild guildData1M).channels.map Channel.id) :=
  ⟨⟨by decide, by decide, by decide⟩,
    (C5_amended_merge_needs_cached_members guildData1M guildData2 rfl rfl rfl rfl
      (by decide) (by decide) (by decide)).1,
    (C5_amended_merge_needs_cached_members guildData1M guildData2 rfl rfl rfl rfl
      (by decide) (by decide) (by decide)).2⟩

/-- C6: after `GuildCreate(A, unavailable)` then `GuildCreate(A, available)`,
starting from the empty cache: the stored guild is the second event's guild
installed wholesale, the relationship-index entry for A holds exactly the
second event's channel ids in order, and the channel store holds only the
second event's channels — in particular every channel seeded by the first
event whose id the second event does not re-list is gone (the old index list
is walked and each of its ids deleted before the re-seed). -/
theorem C6_unavailable_then_available_replaces (d1 d2 : GuildData)
    (h1g : d1.garbled = false) (h1m : d1.mismatch = false)
    (h2g : d2.garbled = false) (h2m : d2.mismatch = false)
    (hid : (freshGuild d2).id = (freshGuild d1).id)
    (hun : (freshGuild d1).unavailable = true)
    (_hav : (freshGuild d2).unavailable = false) :
    mget (guildCreate d2 (guildCreate d1 initialCache).1).1.guilds (freshGuild d2).id
        = some (freshGuild d2) ∧
      mget (guildCreate d2 (guildCreate d1 initialCache).1).1.guildChannelRelationship
          (freshGuild d2).id
        = some ((freshGuild d2).channels.map Channel.id) ∧
      ∀ cid, cid ∉ (freshGuild d2).channels.map Channel.id →
        mget (guildCreate d2 (guildCreate d1 initialCache).1).1.channels cid = none := by
  have hdel : ((freshGuild d1).channels.map Channel.id).foldl (fun acc c => mdel acc c)
      ((freshGuild d1).channels.foldl (fun m ch => mset m ch.id ch)
        ([] : List (Nat × Channel))) = [] := by
    apply foldl_mdel_eq_nil
    · exact nodupKeys_buildChannels (by simp [NoDupKeys])
    · intro p hp
      rcases mem_buildChannels hp with h | h
      · simp at h
      · exact h
  have hst2 : (guildCreate d2 (guildCreate d1 initialCache).1).1 =
      { currentUser := ⟨0, 0⟩
        channels := (freshGuild d2).channels.foldl (fun m ch => mset m ch.id ch) []
        guildChannelRelationship :=
          [((freshGuild d2).id, (freshGuild d2).channels.map Channel.id)]
        users := []
        guilds := [((freshGuild d2).id, freshGuild d2)] } := by
    rw [guildCreate_from_empty d1 h1g h1m]
    simp [guildCreate, h2g, h2m, mget, mset, hid, hun, setChannelsFor, hdel]
  rw [hst2]
  refine ⟨by simp [mget], by simp [mget], ?_⟩
  intro cid hcid
  simp only []
  rw [mget_buildChannels_notmem hcid]
  rfl

/-- First event: guild 7 unavailable with two seeded channels. -/
def guildDataUn : GuildData :=
  ⟨some 7, some true, none, none, some [⟨10, 7, 0, 0⟩, ⟨11, 7, 0, 0⟩], none, none,
    some 1, false, false⟩

/-- Second event: guild 7 available with one channel. -/
def guildDataAv : GuildData :=
  ⟨some 7, some false, none, none, some [⟨20, 7, 0, 0⟩], none, none, some 2, false, false⟩

/-- Witness for C6: the replacement installs the second guild, re-seeds the
index to `[20]`, and channel 10 from the first event is gone. -/
theorem C6_unavailable_witness :
    ((freshGuild guildDataUn).unavailable = true ∧
      (freshGuild guildDataAv).unavailable = false ∧
      (freshGuild guildDataAv).id = (freshGuild guildDataUn).id) ∧
    mget (guildCreate guildDataAv (guildCreate guildDataUn initialCache).1).1.guilds
        (freshGuild guildDataAv).id
      = some (freshGuild guildDataAv) ∧
    mget (guildCreate guildDataAv
          (guildCreate guildDataUn initialCache).1).1.guildChannelRelationship
        (freshGuild guildDataAv).id
      = some ((freshGuild guildDataAv).channels.map Channel.id) ∧
    mget (guildCreate guildDataAv (guildCreate guildDataUn initialCache).1).1.channels 10
      = none :=
  ⟨⟨by decide, by decide, by decide⟩,
    (C6_unavailable_then_available_replaces guildDataUn guildDataAv rfl rfl rfl rfl
      (by decide) (by decide) (by decide)).1,
    (C6_unavailable_then_available_replaces guildDataUn guildDataAv rfl rfl rfl rfl
      (by decide) (by decide) (by decide)).2.1,
    (C6_unavailable_then_available_replaces guildDataUn guildDataAv rfl rfl rfl rfl
      (by decide) (by decide) (by decide)).2.2 10 (by decide)⟩

/-- Degenerate `GuildCreate` payload: guild id 0 with one embedded channel. -/
def zeroGuildCreateData : GuildData :=
  ⟨some 0, some false, none, none, some [⟨5, 0, 0, 0⟩], none, none, none, false, false⟩

/-- C9 counterexample: `GuildCreate`'s `setChannels` closure does not share
`registerChannelRelationship`'s zero-guard.  A single `GuildCreate` event with
guild id 0 creates a relationship-index entry for guild 0 holding channel 5 —
contradicting the claim that guild id 0 is never indexed in any reachable
state.  (With inconsistent guild ids across channel events, a channel id can
likewise end up in two guilds' lists.) -/
theorem C9_counterexample_zero_guild_indexed :
    mget (guildCreate zeroGuildCreateData initialCache).1.guildChannelRelationship 0
      = some [5] := by decide

/-- C9 (amended): restricted to event sequences consistent with a channel
ownership map `owner` — channel events report `owner c` (or 0) as channel
`c`'s guild, and every `GuildCreate` has a non-zero guild id and embeds only
channels it owns — every handler preserves the index invariant from the
initial state: each index entry belongs to a non-zero guild and lists only
channels it owns.  Hence each channel id appears in at most one guild's list
(second conjunct), and a channel whose owner is 0 is never indexed, nor is
guild 0 itself (third conjunct). -/
theorem C9_amended_ownership_invariant (owner : Nat → Nat) (cmds : List Command)
    (hc : ∀ cmd ∈ cmds, consistentB owner cmd = true) :
    IndexOk owner (run cmds initialCache).guildChannelRelationship ∧
      (∀ p ∈ (run cmds initialCache).guildChannelRelationship,
        ∀ q ∈ (run cmds initialCache).guildChannelRelationship,
        ∀ c, c ∈ p.2 → c ∈ q.2 → p.1 = q.1) ∧
      (∀ p ∈ (run cmds initialCache).guildChannelRelationship,
        ∀ c ∈ p.2, owner c ≠ 0 ∧ p.1 ≠ 0) := by
  have h := run_preserves_indexOk owner cmds initialCache hc
    (by intro p hp; simp [initialCache] at hp)
  refine ⟨h, ?_, ?_⟩
  · intro p hp q hq c hcp hcq
    rw [← (h p hp).2 c hcp, ← (h q hq).2 c hcq]
  · intro p hp c hcp
    refine ⟨?_, (h p hp).1⟩
    rw [(h p hp).2 c hcp]
    exact (h p hp).1

/-- Ownership map: channel 5 belongs to guild 7, everything else unowned. -/
def ownerW : Nat → Nat := fun c => if c = 5 then 7 else 0

/-- Consistent event sequence: a guild create seeding channel 5, an update for
it, then its deletion. -/
def cmdsW : List Command :=
  [Command.evGuildCreate
      ⟨some 7, some false, none, none, some [⟨5, 7, 0, 0⟩], none, none, none, false, false⟩,
    Command.evChannelUpdate ⟨some 5, some 7, none, some 1, false, false⟩,
    Command.evChannelDelete ⟨5, 7, false⟩]

/-- Witness for C9 (amended) on a concrete consistent sequence. -/
theorem C9_amended_witness :
    (∀ cmd ∈ cmdsW, consistentB ownerW cmd = true) ∧
      IndexOk ownerW (run cmdsW initialCache).guildChannelRelationship :=
  ⟨by decide, (C9_amended_ownership_invariant ownerW cmdsW (by decide)).1⟩

end DisgordTlru
